import Mathlib

/-!
Verification of the StepCount web pipeline (`process_csv_data` in
`src/stepcount/api.py`) against its natural-language specification.

The pipeline stages modelled here, in source order:
schema mapping, x/y/z type-coercion validation, sample-rate inference with
layered fallbacks, conditional resampling, the wear-statistics / minimum-data
guard stage, and the minute/hour/day aggregation roll-up.

Machine floats of the source are modelled as rationals; pandas NaN/None is
modelled with `Option`.
-/

namespace StepCount

/-! ## Sample-rate inference (api.py lines 215-258)

The timestamp index is modelled as a list of rationals (seconds).
`primary` models the outcome of `utils.infer_freq` followed by the
Timedelta/float conversion: `none` when `infer_freq` returned `None` or the
call raised, `some r` when it produced the candidate rate `r`.
-/

/-- Consecutive timestamp deltas: `index.to_series().diff().dropna()`. -/
def consecutiveDeltas : List ℚ → List ℚ
  | a :: b :: t => (b - a) :: consecutiveDeltas (b :: t)
  | _ => []

/-- Insert into a sorted list, preserving order. -/
def insertSorted (a : ℚ) : List ℚ → List ℚ
  | [] => [a]
  | b :: t => if a ≤ b then a :: b :: t else b :: insertSorted a t

/-- Insertion sort of a list of rationals. -/
def sortQ (l : List ℚ) : List ℚ := l.foldr insertSorted []

/-- Median as computed by `pandas.Series.median`: middle element for odd
length, average of the two middle elements for even length. -/
def medianQ (l : List ℚ) : ℚ :=
  if l.length % 2 = 1 then (sortQ l).getD (l.length / 2) 0
  else ((sortQ l).getD (l.length / 2 - 1) 0 + (sortQ l).getD (l.length / 2) 0) / 2

/-- Arithmetic mean as computed by `pandas.Series.mean`. -/
def meanQ (l : List ℚ) : ℚ := l.sum / l.length

/-- The try-block of lines 216-231: the primary `infer_freq` estimate is kept
only when the call succeeded and the value lies in the plausible band
1..1000 Hz; otherwise the code raises into the fallback branch. -/
def primaryUsable (primary : Option ℚ) : Option ℚ :=
  match primary with
  | none => none
  | some r => if r < 1 ∨ 1000 < r then none else some r

/-- The except-branch of lines 232-256, translated clause by clause.  Note the
source's `else: sample_rate = 104` on line 250: an in-band median-based
estimate is overwritten by the constant 104. -/
def fallbackRate (ts : List ℚ) : ℚ :=
  if 1 < ts.length then
    match consecutiveDeltas ts with
    | [] => 104
    | d :: ds =>
      if 1 / medianQ (d :: ds) < 1 ∨ 1000 < 1 / medianQ (d :: ds) then
        1 / meanQ (d :: ds)
      else 104
  else 104

/-- The inferred rate when the caller supplies no sample rate. -/
def inferredRate (primary : Option ℚ) (ts : List ℚ) : ℚ :=
  match primaryUsable primary with
  | some r => r
  | none => fallbackRate ts

/-- Lines 215-258: the final sample-rate estimate.  `requested` is the
caller-supplied `request.sample_rate` (`Optional[int]`). -/
def computeSampleRate (requested : Option Int) (primary : Option ℚ) (ts : List ℚ) : ℚ :=
  match requested with
  | none => inferredRate primary ts
  | some r => if r = 0 then inferredRate primary ts else (r : ℚ)

/-! ## Schema mapping (api.py lines 110-125)

`usecols` is the already-split list of column names from `request.txyz`;
`cols` the columns of the uploaded table.
-/

/-- Failure outcomes of the schema-mapping stage: the `ValueError` for a
column list whose length is not 4, and the `KeyError` enumerating the missing
names together with the available columns. -/
inductive SchemaErr
  | badCount (n : Nat)
  | missingCols (missing : List String) (available : List String)
deriving DecidableEq

/-- The rename mapping of lines 120-125.  Python builds a dict from the four
bindings `usecols[0] -> time`, `usecols[1] -> x`, `usecols[2] -> y`,
`usecols[3] -> z` in that order, so when a name occurs several times the last
binding wins; checking positions 3,2,1,0 in that order reproduces this. -/
def renameCol (usecols : List String) (c : String) : String :=
  if c = usecols.getD 3 "" then "z"
  else if c = usecols.getD 2 "" then "y"
  else if c = usecols.getD 1 "" then "x"
  else if c = usecols.getD 0 "" then "time"
  else c

/-- Lines 110-125: length check, missing-column check, rename. -/
def mapSchema (usecols cols : List String) : Except SchemaErr (List String) :=
  if usecols.length = 4 then
    if (usecols.filter (fun c => decide (c ∉ cols))).isEmpty then
      Except.ok (cols.map (renameCol usecols))
    else Except.error (SchemaErr.missingCols (usecols.filter (fun c => decide (c ∉ cols))) cols)
  else Except.error (SchemaErr.badCount usecols.length)

/-- Whether an `Except` is a failure. -/
def isError {ε α : Type} : Except ε α → Bool
  | Except.error _ => true
  | Except.ok _ => false

/-! ## Conditional resampling (api.py lines 260-278) -/

/-- Outcome of the resampling stage. -/
inductive ResampleOutcome
  | insufficientData (minimumRequired actual : Nat)
  | resampled (rate : ℚ)
  | unchanged (rate : ℚ)
deriving DecidableEq

/-- Lines 261-264: only the ssl variant requires a fixed target frequency,
namely 30 Hz. -/
def targetFreq (modelType : String) : Option ℚ :=
  if modelType = "ssl" then some 30 else none

/-- Lines 266-278: resample only when a target frequency exists and the
effective rate differs from it; below 10 samples this fails naming the
required minimum 10 and the actual count; otherwise the series is regridded
and the effective rate becomes the target. -/
def resampleStage (modelType : String) (sampleRate : ℚ) (n : Nat) : ResampleOutcome :=
  if modelType = "ssl" then
    if sampleRate ≠ 30 then
      if n < 10 then ResampleOutcome.insufficientData 10 n
      else ResampleOutcome.resampled 30
    else ResampleOutcome.unchanged sampleRate
  else ResampleOutcome.unchanged sampleRate

/-! ## Wear statistics, minimum-data guard and exclusions (api.py lines 280-306)

The cleaned frame is a list of rows of optional x/y/z values (`none` models
NaN, which resampling and wear flagging can reintroduce).  Wear statistics
are a Python dict from statistic name to value, modelled as an association
list where the first matching key wins; `utils.calculate_wear_stats`,
`utils.drop_first_last_days` and `utils.flag_wear_below_days` live outside
this file's source and are abstract function parameters.
-/

/-- One sample row after validation: x/y/z values, possibly NaN. -/
structure Row where
  x : Option ℚ
  y : Option ℚ
  z : Option ℚ
deriving DecidableEq

/-- The cleaned frame. -/
abbrev Frame := List Row

/-- A wear-statistics mapping (Python dict), first matching key wins. -/
abbrev WearStats := List (String × ℚ)

/-- Dict lookup. -/
def lookupStat : WearStats → String → Option ℚ
  | [], _ => none
  | p :: t, k => if p.1 = k then some p.2 else lookupStat t k

/-- Python `old.update(upd)`: on lookup, keys of `upd` win over `old`. -/
def dictUpdate (old upd : WearStats) : WearStats := upd ++ old

/-- A row with a NaN among x, y, z: one row of
`csv_data[['x','y','z']].isna().any(axis=1)`. -/
def rowHasNull (r : Row) : Bool := r.x.isNone || r.y.isNone || r.z.isNone

/-- Line 302: the frame is empty, or every row has a NaN among x/y/z. -/
def noValidData (f : Frame) : Bool := f.length == 0 || f.all rowHasNull

/-- Lines 292-296: optionally drop first/last days, then optionally flag
low-wear days, in that order. -/
def applyExclusions (dropFL flagWB : Frame → Frame) (exclFL exclWB : Bool) (f : Frame) : Frame :=
  if exclWB then flagWB (if exclFL then dropFL f else f)
  else (if exclFL then dropFL f else f)

/-- Outcome of the wear-statistics / guard stage: the two structured
early-return dictionaries of lines 285-289 and 303-306, or the frame and
merged wear statistics that flow on to model invocation. -/
inductive StageOutcome
  | insufficientData (dataPoints minimumRequired : Nat)
  | noData (wearStats : WearStats)
  | proceed (frame : Frame) (wearStats : WearStats)
deriving DecidableEq

/-- Lines 280-306: compute wear statistics, return the structured
insufficient-data dict for the rf variant below 50 samples, otherwise apply
exclusions, merge recomputed wear statistics into the earlier map, and
return the structured no-data dict when nothing valid remains. -/
def wearGuardStage (calcWS : Frame → WearStats) (dropFL flagWB : Frame → Frame)
    (modelType : String) (exclFL exclWB : Bool) (f : Frame) : StageOutcome :=
  if modelType = "rf" ∧ f.length < 50 then
    StageOutcome.insufficientData f.length 50
  else if noValidData (applyExclusions dropFL flagWB exclFL exclWB f) then
    StageOutcome.noData
      (dictUpdate (calcWS f) (calcWS (applyExclusions dropFL flagWB exclFL exclWB f)))
  else
    StageOutcome.proceed (applyExclusions dropFL flagWB exclFL exclWB f)
      (dictUpdate (calcWS f) (calcWS (applyExclusions dropFL flagWB exclFL exclWB f)))

/-! ## Minute/hour/day aggregation (api.py lines 449-469)

A sample is a (timestamp in whole seconds, step value) pair.  Buckets are
half-open, left-aligned and calendar-anchored, which integer division by the
bucket width models exactly.  `resample('1T').agg(sum steps).fillna(0)` makes
an empty minute bucket contribute 0, which the empty sum models; the hour and
day tables are then derived purely from the minute table.
-/

/-- Step total of minute bucket `m` of the zero-filled minute table. -/
def minuteTotal (samples : List (Nat × ℚ)) (m : Nat) : ℚ :=
  ((samples.filter (fun p => p.1 / 60 == m)).map (fun p => p.2)).sum

/-- Step total of hour bucket `h`, summed from the minute table. -/
def hourTotal (samples : List (Nat × ℚ)) (h : Nat) : ℚ :=
  ((List.range 60).map (fun i => minuteTotal samples (60 * h + i))).sum

/-- Step total of day bucket `d`, summed from the minute table. -/
def dayTotal (samples : List (Nat × ℚ)) (d : Nat) : ℚ :=
  ((List.range 1440).map (fun i => minuteTotal samples (1440 * d + i))).sum

/-! ## x/y/z type-coercion validation (api.py lines 127-150)

A raw CSV cell is a number, a string, or null.  pandas loads a column that
contains any string as object dtype; `pd.to_numeric(errors='coerce')` then
turns unparseable strings into NaN, and the code reports exactly the cells
that were non-null before coercion and null after it.
-/

/-- A raw cell of the x, y or z column as loaded from the CSV. -/
inductive Cell
  | num (q : ℚ)
  | str (s : String)
  | null
deriving DecidableEq

/-- Value of a digit string (most significant first). -/
def digitsToNat (cs : List Char) : Nat :=
  cs.foldl (fun a c => a * 10 + (c.toNat - 48)) 0

/-- Decimal number parser on a sign-stripped character list: integer digits
with an optional fractional part, at least one digit in total. -/
def parseUnsigned (cs : List Char) : Option ℚ :=
  match cs.span Char.isDigit with
  | (intPart, []) =>
    if intPart.isEmpty then none else some (digitsToNat intPart : ℚ)
  | (intPart, '.' :: fracPart) =>
    if fracPart.all Char.isDigit && (!intPart.isEmpty || !fracPart.isEmpty) then
      some ((digitsToNat intPart : ℚ) + (digitsToNat fracPart : ℚ) / (10 ^ fracPart.length))
    else none
  | _ => none

/-- Numeric coercion of a string cell, modelling `pd.to_numeric` on one
value: optional sign followed by a decimal number; anything else coerces to
NaN. -/
def parseNum (s : String) : Option ℚ :=
  match s.toList with
  | '-' :: rest => (parseUnsigned rest).map (fun q => -q)
  | '+' :: rest => parseUnsigned rest
  | cs => parseUnsigned cs

/-- A cell that fails coercion: non-null before `pd.to_numeric`, NaN after. -/
def cellFailsCoercion : Cell → Bool
  | Cell.str s => (parseNum s).isNone
  | _ => false

/-- pandas dtype of the loaded column: numeric unless some cell is a string. -/
def isNumericDtype (col : List Cell) : Bool :=
  col.all fun c =>
    match c with
    | Cell.str _ => false
    | _ => true

/-- 0-based positions and original strings of the cells failing coercion. -/
def failedCoercions (col : List Cell) : List (Nat × String) :=
  col.enum.filterMap fun p =>
    match p.2 with
    | Cell.str s => if (parseNum s).isNone then some (p.1, s) else none
    | _ => none

/-- One collected issue: the column name, the 1-based row numbers, and the
original offending strings, parallel lists. -/
structure ColIssue where
  colName : String
  rows : List Nat
  vals : List String
deriving DecidableEq

/-- Lines 129-145 for one column: nothing to collect when the dtype is
already numeric or no value failed; otherwise the first 5 failures with
1-based row numbers and original strings. -/
def columnIssue (name : String) (col : List Cell) : Option ColIssue :=
  if isNumericDtype col then none
  else if (failedCoercions col).isEmpty then none
  else some ⟨name, ((failedCoercions col).take 5).map (fun p => p.1 + 1),
    ((failedCoercions col).take 5).map (fun p => p.2)⟩

/-- Lines 127-150: the issues of all three columns are collected and raised
together as one single error; columns without issues pass through. -/
def validateNumericColumns (x y z : List Cell) : Except (List ColIssue) Unit :=
  if ([("x", x), ("y", y), ("z", z)].filterMap (fun p => columnIssue p.1 p.2)).isEmpty then
    Except.ok ()
  else
    Except.error ([("x", x), ("y", y), ("z", z)].filterMap (fun p => columnIssue p.1 p.2))

/-- The column a collected issue refers to. -/
def colByName (x y z : List Cell) (name : String) : List Cell :=
  if name = "x" then x else if name = "y" then y else if name = "z" then z else []

end StepCount

namespace StepCount

/-- Summing a range of length `a * b` in `b`-sized blocks. -/
theorem sum_map_range_mul (g : Nat → ℚ) (a b : Nat) :
    ((List.range (a * b)).map g).sum =
      ((List.range a).map (fun j => ((List.range b).map (fun k => g (b * j + k))).sum)).sum := by
  induction a with
  | zero => simp
  | succ n ih =>
    have h1 : (n + 1) * b = n * b + b := by ring
    rw [h1, List.range_add, List.map_append, List.sum_append, ih,
      List.range_succ, List.map_append, List.sum_append, List.map_map]
    congr 1
    simp only [List.map_singleton, List.sum_singleton]
    have h2 : (g ∘ fun x => n * b + x) = fun k => g (b * n + k) := by
      funext k
      simp [Function.comp, Nat.mul_comm]
    rw [h2]

/-- Dict lookup distributes over append: the left map wins. -/
theorem lookupStat_append (l1 l2 : WearStats) (k : String) :
    lookupStat (l1 ++ l2) k =
      match lookupStat l1 k with
      | some v => some v
      | none => lookupStat l2 k := by
  induction l1 with
  | nil => simp [lookupStat]
  | cons p t ih =>
    by_cases h : p.1 = k
    · simp [lookupStat, h]
    · simp only [List.cons_append, lookupStat, if_neg h]
      exact ih

/-- C1: with no supplied rate, failed primary inference, and timestamps
0 s, 0.1 s, 0.2 s, the median of consecutive deltas converts to 10 Hz, which
lies inside the band 1..1000 Hz, yet the code returns 104: the claim that the
final estimate equals the in-band median-based estimate fails, because the
source's else-branch (line 250) discards every in-band median estimate. -/
theorem C1_median_fallback_discarded :
    primaryUsable none = none ∧
    consecutiveDeltas [0, 1/10, 1/5] = [1/10, 1/10] ∧
    (1 : ℚ) ≤ 1 / medianQ [1/10, 1/10] ∧
    1 / medianQ [1/10, 1/10] ≤ 1000 ∧
    computeSampleRate none none [0, 1/10, 1/5] = 104 ∧
    computeSampleRate none none [0, 1/10, 1/5] ≠ 1 / medianQ [1/10, 1/10] := by
  refine ⟨rfl, ?_, ?_, ?_, ?_, ?_⟩ <;>
    norm_num [computeSampleRate, inferredRate, primaryUsable, fallbackRate,
      consecutiveDeltas, medianQ, sortQ, insertSorted, meanQ]

/-- C2: when the caller supplies no sample rate (or supplies 0), the primary
inference is unusable, and no delta-based fallback is available (fewer than
two samples, equivalently no consecutive deltas), the final estimate is the
fixed default 104 Hz. -/
theorem C2_default_rate_104 (requested : Option Int) (primary : Option ℚ) (ts : List ℚ)
    (hreq : requested = none ∨ requested = some 0)
    (hprim : primaryUsable primary = none)
    (hfall : ts.length ≤ 1 ∨ consecutiveDeltas ts = []) :
    computeSampleRate requested primary ts = 104 := by
  have hinf : inferredRate primary ts = fallbackRate ts := by
    unfold inferredRate
    rw [hprim]
  have hfb : fallbackRate ts = 104 := by
    unfold fallbackRate
    rcases hfall with h1 | h2
    · rw [if_neg (by omega)]
    · by_cases hlen : 1 < ts.length
      · rw [if_pos hlen, h2]
      · rw [if_neg hlen]
  rcases hreq with h | h <;> subst h <;> simp [computeSampleRate, hinf, hfb]

/-- Witness for C2 at a concrete degenerate input: a single-sample recording
with failed primary inference gets the default rate. -/
theorem C2_default_rate_104_witness :
    computeSampleRate none none [0] = 104 :=
  C2_default_rate_104 none none [0] (Or.inl rfl) rfl (Or.inl (by decide))

/-- C10: a caller-supplied sample rate of exactly 0 is treated the same as an
absent one (inference runs), and every other supplied value, negative or out
of the 1..1000 Hz band included, is used verbatim with no band validation. -/
theorem C10_supplied_rate_verbatim (primary : Option ℚ) (ts : List ℚ) :
    computeSampleRate (some 0) primary ts = computeSampleRate none primary ts ∧
    ∀ r : Int, r ≠ 0 → computeSampleRate (some r) primary ts = (r : ℚ) := by
  constructor
  · simp [computeSampleRate]
  · intro r hr
    simp [computeSampleRate, hr]

/-- Witness for C10: supplied 0 defers to inference, and a supplied negative
rate of -5 Hz is used verbatim even though it is outside the plausible band. -/
theorem C10_supplied_rate_verbatim_witness :
    computeSampleRate (some 0) (some 5000) [0] = computeSampleRate none (some 5000) [0] ∧
    computeSampleRate (some (-5)) (some 5000) [0] = ((-5 : Int) : ℚ) :=
  ⟨(C10_supplied_rate_verbatim (some 5000) [0]).1,
   (C10_supplied_rate_verbatim (some 5000) [0]).2 (-5) (by decide)⟩

/-- C5: when resampling is triggered (ssl variant, effective rate other than
the 30 Hz target), the stage fails with the insufficient-data error naming
the minimum 10 and the actual count if and only if fewer than 10 samples are
present; with exactly 10 samples it succeeds. -/
theorem C5_resample_minimum (sampleRate : ℚ) (n : Nat) (h : sampleRate ≠ 30) :
    ((∃ req act, resampleStage "ssl" sampleRate n = ResampleOutcome.insufficientData req act)
        ↔ n < 10) ∧
    (∀ req act, resampleStage "ssl" sampleRate n = ResampleOutcome.insufficientData req act →
        req = 10 ∧ act = n) ∧
    (n = 10 → resampleStage "ssl" sampleRate n = ResampleOutcome.resampled 30) := by
  have hs : resampleStage "ssl" sampleRate n =
      if n < 10 then ResampleOutcome.insufficientData 10 n
      else ResampleOutcome.resampled 30 := by
    rw [resampleStage, if_pos rfl, if_pos h]
  rw [hs]
  by_cases hn : n < 10
  · rw [if_pos hn]
    refine ⟨⟨fun _ => hn, fun _ => ⟨10, n, rfl⟩⟩, ?_, ?_⟩
    · intro req act heq
      simp only [ResampleOutcome.insufficientData.injEq] at heq
      exact ⟨heq.1.symm, heq.2.symm⟩
    · intro h10
      omega
  · rw [if_neg hn]
    refine ⟨⟨?_, fun hlt => absurd hlt hn⟩, ?_, fun _ => rfl⟩
    · rintro ⟨req, act, heq⟩
      simp at heq
    · intro req act heq
      simp at heq

/-- Witness for C5 at 9 samples: resampling a 104 Hz series for the ssl
variant fails naming minimum 10 and actual 9. -/
theorem C5_resample_minimum_witness :
    resampleStage "ssl" 104 9 = ResampleOutcome.insufficientData 10 9 := by
  obtain ⟨hiff, hname, -⟩ := C5_resample_minimum 104 9 (by norm_num)
  obtain ⟨req, act, heq⟩ := hiff.mpr (by norm_num)
  obtain ⟨h1, h2⟩ := hname req act heq
  rw [heq, h1, h2]

/-- C7 counterexample: with the duplicated column list t,a,a,b all of whose
names exist in the input, schema mapping succeeds, but the renamed columns
are time,y,z: the canonical name x is absent, refuting the claim that every
non-failing input is renamed to the canonical time/x/y/z set. -/
theorem C7_duplicate_names_counterexample :
    mapSchema ["t", "a", "a", "b"] ["t", "a", "b"] = Except.ok ["time", "y", "z"] ∧
    "x" ∉ ["time", "y", "z"] := by
  constructor
  · rfl
  · decide

/-- C7 (amended): schema mapping fails iff the supplied list does not have
exactly 4 names or some named column is absent; the missing-column error
carries exactly the absent names and the available columns; and when the 4
names are distinct, a successful rename yields all of time, x, y, z. -/
theorem C7_schema_mapping (usecols cols : List String) :
    (isError (mapSchema usecols cols) = true ↔
        usecols.length ≠ 4 ∨ ∃ c ∈ usecols, c ∉ cols) ∧
    (∀ missing avail, mapSchema usecols cols = Except.error (SchemaErr.missingCols missing avail) →
        avail = cols ∧ ∀ c, c ∈ missing ↔ c ∈ usecols ∧ c ∉ cols) ∧
    (usecols.Nodup → ∀ out, mapSchema usecols cols = Except.ok out →
        "time" ∈ out ∧ "x" ∈ out ∧ "y" ∈ out ∧ "z" ∈ out) := by
  refine ⟨?_, ?_, ?_⟩
  · by_cases h4 : usecols.length = 4
    · by_cases hm : (usecols.filter (fun c => decide (c ∉ cols))).isEmpty = true
      · rw [mapSchema, if_pos h4, if_pos hm]
        simp only [isError, Bool.false_eq_true, false_iff, not_or, not_exists]
        rw [List.isEmpty_iff, List.filter_eq_nil_iff] at hm
        refine ⟨by omega, ?_⟩
        intro c hc
        exact hm c hc.1 (by simpa using hc.2)
      · rw [mapSchema, if_pos h4, if_neg hm]
        simp only [isError, true_iff]
        right
        rw [List.isEmpty_iff] at hm
        obtain ⟨c, hc⟩ := List.exists_mem_of_ne_nil _ hm
        rw [List.mem_filter] at hc
        exact ⟨c, hc.1, by simpa using hc.2⟩
    · rw [mapSchema, if_neg h4]
      simp [isError, h4]
  · intro missing avail heq
    by_cases h4 : usecols.length = 4
    · by_cases hm : (usecols.filter (fun c => decide (c ∉ cols))).isEmpty = true
      · rw [mapSchema, if_pos h4, if_pos hm] at heq
        cases heq
      · rw [mapSchema, if_pos h4, if_neg hm] at heq
        simp only [Except.error.injEq, SchemaErr.missingCols.injEq] at heq
        obtain ⟨h1, h2⟩ := heq
        refine ⟨h2.symm, ?_⟩
        intro c
        rw [← h1, List.mem_filter]
        simp
    · rw [mapSchema, if_neg h4] at heq
      simp only [Except.error.injEq] at heq
      cases heq
  · intro hnd out heq
    by_cases h4 : usecols.length = 4
    · by_cases hm : (usecols.filter (fun c => decide (c ∉ cols))).isEmpty = true
      · rw [mapSchema, if_pos h4, if_pos hm] at heq
        simp only [Except.ok.injEq] at heq
        subst heq
        rw [List.isEmpty_iff, List.filter_eq_nil_iff] at hm
        have hmem : ∀ c ∈ usecols, c ∈ cols := by
          intro c hc
          have := hm c hc
          simpa using this
        obtain ⟨a, b, c, d, habcd⟩ : ∃ a b c d, usecols = [a, b, c, d] := by
          rcases usecols with _ | ⟨a, _ | ⟨b, _ | ⟨c, _ | ⟨d, _ | ⟨e, t⟩⟩⟩⟩⟩ <;>
            first
            | exact ⟨a, b, c, d, rfl⟩
            | simp at h4
        subst habcd
        simp only [List.nodup_cons, List.mem_cons, List.not_mem_nil, or_false,
          List.nodup_nil, and_true, not_or] at hnd
        obtain ⟨⟨hab, hac, had⟩, ⟨hbc, hbd⟩, hcd⟩ := hnd
        have ha : a ∈ cols := hmem a (by simp)
        have hb : b ∈ cols := hmem b (by simp)
        have hc : c ∈ cols := hmem c (by simp)
        have hd : d ∈ cols := hmem d (by simp)
        refine ⟨?_, ?_, ?_, ?_⟩
        · refine List.mem_map.mpr ⟨a, ha, ?_⟩
          simp [renameCol, hab, hac, had]
        · refine List.mem_map.mpr ⟨b, hb, ?_⟩
          simp [renameCol, hbc, hbd, Ne.symm hab]
        · refine List.mem_map.mpr ⟨c, hc, ?_⟩
          simp [renameCol, hcd, Ne.symm hac, Ne.symm hbc]
        · refine List.mem_map.mpr ⟨d, hd, ?_⟩
          simp [renameCol]
      · rw [mapSchema, if_pos h4, if_neg hm] at heq
        cases heq
    · rw [mapSchema, if_neg h4] at heq
      cases heq

/-- Witness for C7 at a concrete distinct-name input: mapping t,a,b,c over a
table with exactly those columns yields all four canonical names. -/
theorem C7_schema_mapping_witness :
    "time" ∈ ["time", "x", "y", "z"] ∧ "x" ∈ ["time", "x", "y", "z"] ∧
    "y" ∈ ["time", "x", "y", "z"] ∧ "z" ∈ ["time", "x", "y", "z"] :=
  (C7_schema_mapping ["t", "a", "b", "c"] ["t", "a", "b", "c"]).2.2
    (by decide) ["time", "x", "y", "z"] (by rfl)

/-- C4: for the rf variant with fewer than 50 samples the stage returns the
structured insufficient-data dictionary naming the actual count and the
required 50 — and it does so for every choice of exclusion policy and
exclusion behaviour, that is, before the exclusion stage and its emptiness
check can run. -/
theorem C4_rf_minimum_data_guard (calcWS : Frame → WearStats) (dropFL flagWB : Frame → Frame)
    (exclFL exclWB : Bool) (f : Frame) (h : f.length < 50) :
    wearGuardStage calcWS dropFL flagWB "rf" exclFL exclWB f =
      StageOutcome.insufficientData f.length 50 := by
  rw [wearGuardStage, if_pos ⟨rfl, h⟩]

/-- A row with all of x, y, z present. -/
def rowW : Row := ⟨some 0, some 0, some 1⟩

/-- Witness for C4: 49 valid rows with the rf variant, under an exclusion
policy that would empty the frame, still yield the insufficient-data result
rather than the no-data result. -/
theorem C4_rf_minimum_data_guard_witness :
    wearGuardStage (fun _ => []) (fun fr => fr) (fun _ => []) "rf" true true
      (List.replicate 49 rowW) = StageOutcome.insufficientData 49 50 := by
  have h := C4_rf_minimum_data_guard (fun _ => []) (fun fr => fr) (fun _ => [])
    true true (List.replicate 49 rowW) (by simp)
  simpa using h

/-- C3: when the rf guard does not fire and, after exclusions, the frame is
empty or every row has a NaN among x/y/z, the stage returns the structured
no-data value (a normal return, not an exception) carrying the wear
statistics merged so far. -/
theorem C3_no_valid_data_outcome (calcWS : Frame → WearStats) (dropFL flagWB : Frame → Frame)
    (modelType : String) (exclFL exclWB : Bool) (f : Frame)
    (hguard : ¬(modelType = "rf" ∧ f.length < 50))
    (hnd : noValidData (applyExclusions dropFL flagWB exclFL exclWB f) = true) :
    wearGuardStage calcWS dropFL flagWB modelType exclFL exclWB f =
      StageOutcome.noData
        (dictUpdate (calcWS f) (calcWS (applyExclusions dropFL flagWB exclFL exclWB f))) := by
  rw [wearGuardStage, if_neg hguard, if_pos hnd]

/-- A wear-statistics computation recording the row count. -/
def calcRows : Frame → WearStats := fun fr => [("rows", (fr.length : ℚ))]

/-- Witness for C3: a valid one-row frame whose low-wear exclusion empties
the frame ends in the structured no-data result with the merged statistics. -/
theorem C3_no_valid_data_outcome_witness :
    wearGuardStage calcRows (fun fr => fr) (fun _ => []) "ssl" false true [rowW] =
      StageOutcome.noData (dictUpdate (calcRows [rowW])
        (calcRows (applyExclusions (fun fr => fr) (fun _ => []) false true [rowW]))) :=
  C3_no_valid_data_outcome calcRows (fun fr => fr) (fun _ => []) "ssl" false true [rowW]
    (by decide) rfl

/-- C9: when the rf guard does not fire, the stage's resulting wear map (in
both the no-data and the proceed outcome) is the pre-exclusion map updated
with the post-exclusion map; on every key the post-exclusion computation
wins when it has the key, and pre-exclusion-only keys are retained. -/
theorem C9_wear_stats_merge (calcWS : Frame → WearStats) (dropFL flagWB : Frame → Frame)
    (modelType : String) (exclFL exclWB : Bool) (f : Frame)
    (hguard : ¬(modelType = "rf" ∧ f.length < 50)) :
    ∃ ws,
      (wearGuardStage calcWS dropFL flagWB modelType exclFL exclWB f = StageOutcome.noData ws ∨
        wearGuardStage calcWS dropFL flagWB modelType exclFL exclWB f =
          StageOutcome.proceed (applyExclusions dropFL flagWB exclFL exclWB f) ws) ∧
      ws = dictUpdate (calcWS f) (calcWS (applyExclusions dropFL flagWB exclFL exclWB f)) ∧
      (∀ k, lookupStat (calcWS (applyExclusions dropFL flagWB exclFL exclWB f)) k ≠ none →
        lookupStat ws k = lookupStat (calcWS (applyExclusions dropFL flagWB exclFL exclWB f)) k) ∧
      (∀ k, lookupStat (calcWS (applyExclusions dropFL flagWB exclFL exclWB f)) k = none →
        lookupStat ws k = lookupStat (calcWS f) k) := by
  refine ⟨dictUpdate (calcWS f) (calcWS (applyExclusions dropFL flagWB exclFL exclWB f)),
    ?_, rfl, ?_, ?_⟩
  · by_cases hnd : noValidData (applyExclusions dropFL flagWB exclFL exclWB f) = true
    · left
      rw [wearGuardStage, if_neg hguard, if_pos hnd]
    · right
      rw [wearGuardStage, if_neg hguard, if_neg hnd]
  · intro k hk
    rw [dictUpdate, lookupStat_append]
    cases hcase : lookupStat (calcWS (applyExclusions dropFL flagWB exclFL exclWB f)) k with
    | none => exact absurd hcase hk
    | some v => rfl
  · intro k hk
    rw [dictUpdate, lookupStat_append, hk]

/-- A wear-statistics computation whose keys differ between the original and
the emptied frame: a shared key with different values, plus one key present
only before and one present only after exclusion. -/
def calcKeyed : Frame → WearStats := fun fr =>
  if fr.isEmpty then [("shared", 9), ("post", 1)] else [("shared", 2), ("pre", 7)]

/-- Witness for C9: the merged map takes the post-exclusion value on the
shared key and keeps the pre-exclusion-only key. -/
theorem C9_wear_stats_merge_witness :
    lookupStat (dictUpdate (calcKeyed [rowW]) (calcKeyed [])) "shared" =
      lookupStat (calcKeyed []) "shared" ∧
    lookupStat (dictUpdate (calcKeyed [rowW]) (calcKeyed [])) "pre" =
      lookupStat (calcKeyed [rowW]) "pre" := by
  obtain ⟨ws, hcase, hws, hpost, hpre⟩ := C9_wear_stats_merge calcKeyed (fun fr => fr)
    (fun _ => []) "ssl" false true [rowW] (by decide)
  have hx : applyExclusions (fun fr => fr) (fun _ => []) false true [rowW] = ([] : Frame) := rfl
  rw [hx] at hws hpost hpre
  subst hws
  have h1 : lookupStat (calcKeyed []) "shared" = some 9 := rfl
  have h2 : lookupStat (calcKeyed []) "pre" = none := rfl
  refine ⟨hpost "shared" ?_, hpre "pre" h2⟩
  rw [h1]
  simp

/-- C8: each day's step total of the day table (derived from the zero-filled
minute table) equals the sum of its 24 constituent hour totals, which in
turn equals the sum of its 1440 constituent minute totals. -/
theorem C8_aggregation_coarsening (samples : List (Nat × ℚ)) (d : Nat) :
    dayTotal samples d =
      ((List.range 24).map (fun j => hourTotal samples (24 * d + j))).sum ∧
    dayTotal samples d =
      ((List.range 1440).map (fun i => minuteTotal samples (1440 * d + i))).sum := by
  refine ⟨?_, rfl⟩
  have key : ((List.range (24 * 60)).map (fun i => minuteTotal samples (1440 * d + i))).sum
      = ((List.range 24).map (fun j => ((List.range 60).map
          (fun k => minuteTotal samples (1440 * d + (60 * j + k)))).sum)).sum :=
    sum_map_range_mul (fun i => minuteTotal samples (1440 * d + i)) 24 60
  have hfg : (fun j => ((List.range 60).map
      (fun k => minuteTotal samples (1440 * d + (60 * j + k)))).sum)
      = (fun j => hourTotal samples (24 * d + j)) := by
    funext j
    have hidx : (fun k => minuteTotal samples (1440 * d + (60 * j + k)))
        = (fun k => minuteTotal samples (60 * (24 * d + j) + k)) := by
      funext k
      have h : 1440 * d + (60 * j + k) = 60 * (24 * d + j) + k := by ring
      rw [h]
    rw [hidx, hourTotal]
  have hr : List.range 1440 = List.range (24 * 60) := rfl
  rw [dayTotal, hr, key, hfg]

/-- Membership in the collected coercion failures characterizes exactly the
string cells that fail to parse, at their 0-based position. -/
theorem mem_failedCoercions (col : List Cell) (i : Nat) (s : String) :
    (i, s) ∈ failedCoercions col ↔
      col[i]? = some (Cell.str s) ∧ (parseNum s).isNone = true := by
  rw [failedCoercions, List.mem_filterMap]
  constructor
  · rintro ⟨⟨j, c⟩, hmem, heq⟩
    rw [List.mk_mem_enum_iff_getElem?] at hmem
    cases c with
    | num q => simp at heq
    | null => simp at heq
    | str t =>
      by_cases hp : (parseNum t).isNone = true
      · simp only [hp, if_true, Option.some.injEq, Prod.mk.injEq] at heq
        obtain ⟨h1, h2⟩ := heq
        subst h1
        subst h2
        exact ⟨by simpa using hmem, hp⟩
      · simp [hp] at heq
  · rintro ⟨hget, hp⟩
    refine ⟨(i, Cell.str s), ?_, ?_⟩
    · rw [List.mk_mem_enum_iff_getElem?]
      simp [hget]
    · simp [hp]

/-- `Forall₂` between two parallel maps of the same list. -/
theorem forall₂_map_map {α β γ : Type} (P : β → γ → Prop) (F : α → β) (G : α → γ)
    (l : List α) (h : ∀ a ∈ l, P (F a) (G a)) :
    List.Forall₂ P (l.map F) (l.map G) := by
  induction l with
  | nil => simp
  | cons a t ih =>
    simp only [List.map_cons]
    exact List.Forall₂.cons (h a (by simp)) (ih (fun b hb => h b (by simp [hb])))

/-- A column with a failing cell produces its issue record. -/
theorem columnIssue_of_any (name : String) (col : List Cell)
    (hany : col.any cellFailsCoercion = true) :
    columnIssue name col =
      some ⟨name, ((failedCoercions col).take 5).map (fun p => p.1 + 1),
        ((failedCoercions col).take 5).map (fun p => p.2)⟩ := by
  obtain ⟨c, hcmem, hcfail⟩ := List.any_eq_true.mp hany
  have hstr : ∃ s, c = Cell.str s ∧ (parseNum s).isNone = true := by
    cases c with
    | str s => exact ⟨s, rfl, by simpa [cellFailsCoercion] using hcfail⟩
    | num q => simp [cellFailsCoercion] at hcfail
    | null => simp [cellFailsCoercion] at hcfail
  obtain ⟨s, rfl, hp⟩ := hstr
  have hdty : isNumericDtype col = false := by
    rw [isNumericDtype, List.all_eq_false]
    exact ⟨Cell.str s, hcmem, by simp⟩
  have hne : (failedCoercions col).isEmpty = false := by
    obtain ⟨i, hi⟩ := List.mem_iff_get?.mp hcmem
    rw [List.get?_eq_getElem?] at hi
    rw [List.isEmpty_eq_false]
    intro hnil
    have hmem : (i, s) ∈ failedCoercions col :=
      (mem_failedCoercions col i s).mpr ⟨hi, hp⟩
    rw [hnil] at hmem
    cases hmem
  rw [columnIssue]
  rw [hdty, hne]
  rfl

/-- C6: whenever some x/y/z cell fails numeric coercion, validation returns
one single error; that error contains an issue record for every failing
column (not only the first), and each record lists at most 5 rows, each a
1-based row number paired with the original offending string found at the
corresponding 0-based position of that column. -/
theorem C6_coercion_error_collection (x y z : List Cell)
    (hbad : x.any cellFailsCoercion = true ∨ y.any cellFailsCoercion = true ∨
      z.any cellFailsCoercion = true) :
    ∃ issues, validateNumericColumns x y z = Except.error issues ∧
      (∀ p ∈ [("x", x), ("y", y), ("z", z)], p.2.any cellFailsCoercion = true →
        ∃ ci ∈ issues, ci.colName = p.1) ∧
      (∀ ci ∈ issues, ci.rows.length ≤ 5 ∧
        List.Forall₂ (fun r v => ∃ i, r = i + 1 ∧
          (colByName x y z ci.colName)[i]? = some (Cell.str v) ∧
          (parseNum v).isNone = true) ci.rows ci.vals) := by
  refine ⟨[("x", x), ("y", y), ("z", z)].filterMap (fun p => columnIssue p.1 p.2), ?_, ?_, ?_⟩
  · have hne : (([("x", x), ("y", y), ("z", z)].filterMap
        (fun p => columnIssue p.1 p.2)).isEmpty) = false := by
      rw [List.isEmpty_eq_false]
      intro hnil
      have hmem : ∀ name col, (name, col) ∈ [("x", x), ("y", y), ("z", z)] →
          col.any cellFailsCoercion = true → False := by
        intro name col hin hany
        have h1 := columnIssue_of_any name col hany
        have : (⟨name, ((failedCoercions col).take 5).map (fun p => p.1 + 1),
            ((failedCoercions col).take 5).map (fun p => p.2)⟩ : ColIssue) ∈
            [("x", x), ("y", y), ("z", z)].filterMap (fun p => columnIssue p.1 p.2) :=
          List.mem_filterMap.mpr ⟨(name, col), hin, h1⟩
        rw [hnil] at this
        cases this
      rcases hbad with h | h | h
      · exact hmem "x" x (by simp) h
      · exact hmem "y" y (by simp) h
      · exact hmem "z" z (by simp) h
    rw [validateNumericColumns, hne]
    rfl
  · intro p hp hpany
    exact ⟨⟨p.1, ((failedCoercions p.2).take 5).map (fun q => q.1 + 1),
      ((failedCoercions p.2).take 5).map (fun q => q.2)⟩,
      List.mem_filterMap.mpr ⟨p, hp, columnIssue_of_any p.1 p.2 hpany⟩, rfl⟩
  · intro ci hci
    obtain ⟨p, hp, hsome⟩ := List.mem_filterMap.mp hci
    have hshape : ci.colName = p.1 ∧
        ci.rows = ((failedCoercions p.2).take 5).map (fun q => q.1 + 1) ∧
        ci.vals = ((failedCoercions p.2).take 5).map (fun q => q.2) := by
      by_cases h1 : isNumericDtype p.2 = true
      · rw [columnIssue, if_pos h1] at hsome
        cases hsome
      · by_cases h2 : (failedCoercions p.2).isEmpty = true
        · rw [columnIssue, if_neg h1, if_pos h2] at hsome
          cases hsome
        · rw [columnIssue, if_neg h1, if_neg h2] at hsome
          simp only [Option.some.injEq] at hsome
          subst hsome
          exact ⟨rfl, rfl, rfl⟩
    obtain ⟨hname, hrows, hvals⟩ := hshape
    have hcol : colByName x y z ci.colName = p.2 := by
      rw [hname]
      simp only [List.mem_cons, List.not_mem_nil, or_false] at hp
      rcases hp with h | h | h <;> subst h <;> rfl
    constructor
    · rw [hrows]
      rw [List.length_map]
      exact List.length_take_le 5 _
    · rw [hrows, hvals]
      refine forall₂_map_map _ _ _ _ ?_
      intro q hq
      have hq2 : q ∈ failedCoercions p.2 := List.take_subset 5 _ hq
      have hchar := (mem_failedCoercions p.2 q.1 q.2).mp (by simpa using hq2)
      exact ⟨q.1, rfl, by rw [hcol]; exact hchar.1, hchar.2⟩

/-- The x column of the witness input: 5 rows, row 3 holds the literal
string abc. -/
def xColW : List Cell :=
  [Cell.str "0.1", Cell.str "0.2", Cell.str "abc", Cell.str "0.4", Cell.str "0.5"]

/-- A clean numeric 5-row column for the witness input. -/
def yColW : List Cell := [Cell.num 0, Cell.num 0, Cell.num 0, Cell.num 0, Cell.num 0]

/-- Witness for C6 at the spec's scenario B: a 5-row table whose x column
holds the string abc in row 3 fails with the single collected error naming
row 3 and value abc. -/
theorem C6_coercion_error_collection_witness :
    validateNumericColumns xColW yColW yColW =
      Except.error [⟨"x", [3], ["abc"]⟩] ∧
    (∃ issues, validateNumericColumns xColW yColW yColW = Except.error issues ∧
      ∃ ci ∈ issues, ci.colName = "x") := by
  constructor
  · rfl
  · obtain ⟨issues, hi, hcov, -⟩ :=
      C6_coercion_error_collection xColW yColW yColW (Or.inl rfl)
    obtain ⟨ci, hmem, hname⟩ := hcov ("x", xColW) (List.mem_cons_self _ _) rfl
    exact ⟨issues, hi, ci, hmem, hname⟩

end StepCount
